import Mathlib

/-!
Verification development for the BlockVerse room-scoped state
synchronization server (repository: tebak-kata-danz).

The repository holds two variants of the BlockVerse server:

* `src/server.js` — keyed its connection registry by a plain JS object
  (`const clients = {}`), whose property access coerces every WebSocket
  key to the string "[object WebSocket]";
* the second document of `src/unnamed/part_000` — the same server with
  the registry fixed to a `Map` (its own comment: plain `{}` causes ALL
  clients to collide on the exact same slot).

The primary model below (`namespace BlockVerse`) embeds the fixed
variant's per-connection semantics, which both variants share apart
from the registry keying and a few message texts.  The
`namespace ServerJs` embeds the `src/server.js`-specific pieces:
the plain-object registry keying (exhibited as a collision), the
`join_room` handler with its error texts, and the
`leaveRoom` / close / error lifecycle.

Modelling conventions (shallow embedding):
* connections are identified by `Nat` (object identity of the ws);
* `uuidv4()` is modelled as a fresh identifier drawn from a counter
  (the only property the server relies on is global uniqueness);
* `Math.random()` draws are modelled by an explicit stream of
  pre-sampled `Int` values carried in the state (`rng`), consumed in
  the same order as the source consumes `Math.random()`;
* `Date.now()` is the state field `now`;
* JS numbers used as coordinates are modelled as `Int`;
* JS objects / Maps used as dictionaries are association lists with
  JS-faithful update (assignment replaces in place, delete removes);
* outbound traffic is an explicit list of (connection, message)
  deliveries in the order the source emits them;
* `wss.clients` with `readyState === OPEN` is the state field
  `openConns`.
-/

namespace BlockVerse

/-- Association-list lookup, modelling `Map.get` / JS property read. -/
def alookup {κ α : Type} [DecidableEq κ] (k : κ) : List (κ × α) → Option α
  | [] => none
  | (k0, v) :: r => if k0 = k then some v else alookup k r

/-- Association-list insert/replace, modelling `Map.set` / JS property
assignment: an existing key keeps its position, a new key is appended. -/
def aset {κ α : Type} [DecidableEq κ] (k : κ) (v : α) : List (κ × α) → List (κ × α)
  | [] => [(k, v)]
  | (k0, v0) :: r => if k0 = k then (k, v) :: r else (k0, v0) :: aset k v r

/-- Association-list removal, modelling `Map.delete` / JS `delete`. -/
def adel {κ α : Type} [DecidableEq κ] (k : κ) (l : List (κ × α)) : List (κ × α) :=
  l.filter (fun p => decide (p.1 ≠ k))

/-- Draw the next pre-sampled value from the random stream
(models one `Math.random()` call). -/
def draw : List Int → Int × List Int
  | [] => (0, [])
  | a :: r => (a, r)

/-- Last `n` elements of a list, modelling `Array.slice(-n)`. -/
def lastN {α : Type} (n : Nat) (l : List α) : List α :=
  l.drop (l.length - n)

/-- Connection session, one per open connection
(`{ playerId, roomId, name }` in both variants). -/
structure Session where
  playerId : Nat
  roomId : Option String
  name : String
deriving DecidableEq, Repr

/-- Per-room player state (`room.players[pid]`).  The cosmetic
`hp` / `joinedAt` fields of `src/server.js` are carried by no claim and
are absent from the fixed variant; they are omitted. -/
structure Player where
  id : Nat
  name : String
  color : String
  x : Int
  y : Int
  z : Int
  rotY : Int
deriving DecidableEq, Repr

/-- Block of the sparse voxel map (`{ x, y, z, type }`). -/
structure Block where
  x : Int
  y : Int
  z : Int
  type : String
deriving DecidableEq, Repr

/-- Chat entry (`{ sender, color, text, ts }`). -/
structure ChatMsg where
  sender : String
  color : String
  text : String
  ts : Nat
deriving DecidableEq, Repr

/-- Room state (`makeRoom` / `createRoom`).  `players` is keyed by
player id, `mapData` is the block list, `chatHistory` the bounded log. -/
structure Room where
  id : String
  name : String
  maxPlayers : Nat
  players : List (Nat × Player)
  mapData : List Block
  chatHistory : List ChatMsg
deriving DecidableEq, Repr

/-- Room metadata row sent in `welcome` / the room-listing query. -/
structure RoomMeta where
  id : String
  name : String
  playerCount : Nat
  maxPlayers : Nat
deriving DecidableEq, Repr

/-- Whole-server state: the room directory, the connection registry,
the set of open connections, the random stream and the clock, plus the
counter producing fresh player identifiers. -/
structure ServerState where
  rooms : List (String × Room)
  clients : List (Nat × Session)
  openConns : List Nat
  rng : List Int
  now : Nat
  nextId : Nat
deriving DecidableEq, Repr

/-- Inbound message after JSON parsing (`msg.type` dispatch).
`malformed` stands for an unparseable payload, `unknownType` for a
parsed payload whose `type` matches no case. -/
inductive InMsg where
  | join_room (roomId : String) (name : Option String) (color : Option String)
  | move (x y z rotY : Int)
  | chat (text : String)
  | place_block (x y z : Int) (blockType : String)
  | save_map (mapData : List Block)
  | ping
  | unknownType
  | malformed
deriving DecidableEq, Repr

/-- Outbound message (the serialized records the server sends). -/
inductive OutMsg where
  | welcome (playerId : Nat) (rooms : List RoomMeta)
  | room_joined (roomId roomName : String) (playerId : Nat)
      (players : List (Nat × Player)) (mapData : List Block)
      (chatHistory : List ChatMsg)
  | player_joined (player : Player)
  | player_moved (id : Nat) (x y z rotY : Int)
  | player_left (id : Nat)
  | chat (message : ChatMsg)
  | block_update (x y z : Int) (blockType : String)
  | map_reload (mapData : List Block)
  | error (text : String)
  | info (text : String)
  | pong (ts : Nat)
deriving DecidableEq, Repr

/-- Deliveries: which open connection receives which message, in
emission order. -/
abbrev Deliveries := List (Nat × OutMsg)

/-- Does connection `w` currently have a registered session whose
`roomId` is `rid`?  This is the membership test of `broadcast`. -/
def inRoomB (st : ServerState) (rid : String) (w : Nat) : Bool :=
  match alookup w st.clients with
  | some sess => decide (sess.roomId = some rid)
  | none => false

/-- Broadcast helper: deliver `msg` to every open connection whose
registered session is in room `rid`, except `skip` (the `broadcast`
function of both variants; non-open sockets are skipped because only
open connections are in `openConns`). -/
def broadcast (st : ServerState) (rid : String) (msg : OutMsg)
    (skip : Option Nat) : Deliveries :=
  (st.openConns.filter (fun w => decide (some w ≠ skip) && inRoomB st rid w)).map
    (fun w => (w, msg))

/-- Default starter map of the fixed variant (`buildDefaultMap`):
a flat grass floor, a stone platform, a brick wall perimeter, a wood
tower and 30 decorative blocks whose positions come from
`Math.random()` (modelled by the `deco` sample function) and whose
types cycle through the fixed list. -/
def buildDefaultMap (deco : Nat → Int × Int) : List Block :=
  let xs : List Int := (List.range 40).map (fun i => (i : Int) - 20)
  let floor := xs.flatMap (fun x => xs.map (fun z => Block.mk x 0 z "grass"))
  let ps : List Int := (List.range 9).map (fun i => (i : Int) - 4)
  let platform := ps.flatMap (fun x => ps.map (fun z => Block.mk x 1 z "stone"))
  let is : List Int := (List.range 7).map (fun i => (i : Int) - 3)
  let walls := is.flatMap (fun i =>
    [Block.mk i 2 (-4) "brick", Block.mk i 2 4 "brick",
     Block.mk (-4) 2 i "brick", Block.mk 4 2 i "brick"])
  let ys : List Int := (List.range 6).map (fun i => (i : Int) + 1)
  let tower := ys.flatMap (fun y =>
    [Block.mk 8 y 8 "wood", Block.mk 9 y 8 "wood",
     Block.mk 8 y 9 "wood", Block.mk 9 y 9 "wood"])
  let decos := ["sand", "snow", "lava", "metal", "glass", "leaf"]
  let scatter := (List.range 30).map (fun i =>
    Block.mk (deco i).1 1 (deco i).2 (decos.getD (i % 6) "sand"))
  floor ++ platform ++ walls ++ tower ++ scatter

/-- Room factory (`makeRoom`), capacity 20 by default at the seeding
sites. -/
def makeRoom (deco : Nat → Int × Int) (id name : String) (maxPlayers : Nat) : Room :=
  Room.mk id name maxPlayers [] (buildDefaultMap deco) []

/-- Initial room directory: the four rooms seeded at startup. -/
def initRooms (deco : Nat → Int × Int) : List (String × Room) :=
  [("room_1", makeRoom deco "room_1" "Main World" 20),
   ("room_2", makeRoom deco "room_2" "PvP Arena" 20),
   ("room_3", makeRoom deco "room_3" "Builder Zone" 20),
   ("room_4", makeRoom deco "room_4" "Roleplay City" 20)]

/-- Room listing rows (`Object.values(rooms).map(...)`). -/
def roomList (st : ServerState) : List RoomMeta :=
  st.rooms.map (fun p => RoomMeta.mk p.2.id p.2.name p.2.players.length p.2.maxPlayers)

/-- Connection handler (`wss.on('connection')`): generate a fresh
player id, register the session with no room and the default name, and
send `welcome`. -/
def connect (st : ServerState) (c : Nat) : ServerState × Deliveries :=
  let pid := st.nextId
  let st1 : ServerState :=
    { st with clients := aset c (Session.mk pid none "Player") st.clients,
              openConns := st.openConns ++ [c],
              nextId := st.nextId + 1 }
  (st1, [(c, OutMsg.welcome pid (roomList st1))])

/-- Leave helper of the fixed variant (`doLeave`): if the session is in
a room, remove the player from that room, append a system chat line
(without trimming), broadcast `player_left` then the system chat to the
room (the leaver is not excluded), and finally null the session's room
reference. -/
def doLeave (st : ServerState) (c : Nat) : ServerState × Deliveries :=
  match alookup c st.clients with
  | none => (st, [])
  | some sess =>
    match sess.roomId with
    | none => (st, [])
    | some rid =>
      match alookup rid st.rooms with
      | none => (st, [])
      | some room =>
        let sysMsg := ChatMsg.mk "System" "#ff6b35" (sess.name ++ " left.") st.now
        let room2 : Room :=
          { room with players := adel sess.playerId room.players,
                      chatHistory := room.chatHistory ++ [sysMsg] }
        let st1 : ServerState := { st with rooms := aset rid room2 st.rooms }
        let out := broadcast st1 rid (OutMsg.player_left sess.playerId) none
                   ++ broadcast st1 rid (OutMsg.chat sysMsg) none
        let st2 : ServerState :=
          { st1 with clients := aset c { sess with roomId := none } st1.clients }
        (st2, out)

/-- Close handler of the fixed variant: the socket leaves the open set,
`doLeave` runs, then the session is deleted from the registry. -/
def closeConn (st : ServerState) (c : Nat) : ServerState × Deliveries :=
  let st0 : ServerState := { st with openConns := st.openConns.erase c }
  let r := doLeave st0 c
  ({ r.1 with clients := adel c r.1.clients }, r.2)

/-- Handler of `join_room` for a registered session (the fixed
variant's `case 'join_room'`): reject a missing or full room before any
mutation, otherwise leave the previous room if any, create the player
at a fresh random spawn, reply with the full room snapshot, broadcast
`player_joined` to the others, and append + broadcast a system chat
line (without trimming). -/
def handleJoin (st : ServerState) (c : Nat) (sess : Session)
    (roomId : String) (nm col : Option String) : ServerState × Deliveries :=
  match alookup roomId st.rooms with
  | none => (st, [(c, OutMsg.error "Room not found")])
  | some room =>
    if room.maxPlayers ≤ room.players.length then
      (st, [(c, OutMsg.error "Room full")])
    else
      let r0 := if sess.roomId.isSome then doLeave st c else (st, [])
      let st1 := r0.1
      let outLeave := r0.2
      let name := (nm.getD "Player").take 24
      let color := col.getD "#00e5ff"
      let sx := (draw st1.rng).1
      let rng1 := (draw st1.rng).2
      let sz := (draw rng1).1
      let rng2 := (draw rng1).2
      let pid := sess.playerId
      match alookup roomId st1.rooms with
      | none => (st1, outLeave)
      | some room1 =>
        let player := Player.mk pid name color sx 2 sz 0
        let room2 : Room := { room1 with players := aset pid player room1.players }
        let st2 : ServerState :=
          { st1 with rooms := aset roomId room2 st1.rooms,
                     clients := aset c (Session.mk pid (some roomId) name) st1.clients,
                     rng := rng2 }
        let joined := (c, OutMsg.room_joined room2.id room2.name pid room2.players
                          room2.mapData (lastN 40 room2.chatHistory))
        let bc1 := broadcast st2 roomId (OutMsg.player_joined player) (some c)
        let sysMsg := ChatMsg.mk "System" "#00e5ff" (name ++ " joined!") st2.now
        let room3 : Room := { room2 with chatHistory := room2.chatHistory ++ [sysMsg] }
        let st3 : ServerState := { st2 with rooms := aset roomId room3 st2.rooms }
        let bc2 := broadcast st3 roomId (OutMsg.chat sysMsg) none
        (st3, outLeave ++ joined :: (bc1 ++ bc2))

/-- Handler of `move` for a registered session: silently ignored unless
the session is in a room holding this player; otherwise overwrite the
player's position and heading and broadcast `player_moved` to everyone
else in the room (the mover is excluded). -/
def handleMove (st : ServerState) (c : Nat) (sess : Session)
    (x y z rotY : Int) : ServerState × Deliveries :=
  match sess.roomId with
  | none => (st, [])
  | some rid =>
    match alookup rid st.rooms with
    | none => (st, [])
    | some room =>
      match alookup sess.playerId room.players with
      | none => (st, [])
      | some p =>
        let p2 : Player := { p with x := x, y := y, z := z, rotY := rotY }
        let room2 : Room := { room with players := aset sess.playerId p2 room.players }
        let st2 : ServerState := { st with rooms := aset rid room2 st.rooms }
        (st2, broadcast st2 rid (OutMsg.player_moved sess.playerId x y z rotY) (some c))

/-- Handler of `chat` for a registered session: silently ignored unless
in a room; otherwise build the capped entry, push it, shift the oldest
entry out when the history exceeds 100, and broadcast to the whole room
(the sender included).  The room-existence guard is the one written in
`src/server.js` (`if (!room) break`); in the fixed variant the branch
is unreachable because a session's room id always names a seeded room. -/
def handleChat (st : ServerState) (c : Nat) (sess : Session)
    (text : String) : ServerState × Deliveries :=
  match sess.roomId with
  | none => (st, [])
  | some rid =>
    match alookup rid st.rooms with
    | none => (st, [])
    | some room =>
      let cm := ChatMsg.mk sess.name
        (((alookup sess.playerId room.players).map Player.color).getD "#fff")
        (text.take 200) st.now
      let h1 := room.chatHistory ++ [cm]
      let h2 := if 100 < h1.length then h1.drop 1 else h1
      let room2 : Room := { room with chatHistory := h2 }
      let st2 : ServerState := { st with rooms := aset rid room2 st.rooms }
      (st2, broadcast st2 rid (OutMsg.chat cm) none)

/-- Single-cell map update of `place_block`: remove every block at the
target coordinate, then append the new block unless the type is the
"air" sentinel. -/
def placeBlockMap (m : List Block) (x y z : Int) (blockType : String) : List Block :=
  let m2 := m.filter (fun b => !(decide (b.x = x) && decide (b.y = y) && decide (b.z = z)))
  if blockType ≠ "air" then m2 ++ [Block.mk x y z blockType] else m2

/-- Handler of `place_block` for a registered session: silently ignored
unless in a room; otherwise apply `placeBlockMap` and broadcast the
single-cell update to the whole room (the placer included). -/
def handlePlace (st : ServerState) (c : Nat) (sess : Session)
    (x y z : Int) (blockType : String) : ServerState × Deliveries :=
  match sess.roomId with
  | none => (st, [])
  | some rid =>
    match alookup rid st.rooms with
    | none => (st, [])
    | some room =>
      let room2 : Room := { room with mapData := placeBlockMap room.mapData x y z blockType }
      let st2 : ServerState := { st with rooms := aset rid room2 st.rooms }
      (st2, broadcast st2 rid (OutMsg.block_update x y z blockType) none)

/-- Handler of `save_map` for a registered session: silently ignored
unless in a room; otherwise replace the room's whole block map with the
supplied list, broadcast `map_reload` to the room (the sender
included), then acknowledge the sender.  The fixed variant's
`Array.isArray(msg.mapData)` guard is subsumed by typing the inbound
payload as a list. -/
def handleSave (st : ServerState) (c : Nat) (sess : Session)
    (mapData : List Block) : ServerState × Deliveries :=
  match sess.roomId with
  | none => (st, [])
  | some rid =>
    match alookup rid st.rooms with
    | none => (st, [])
    | some room =>
      let room2 : Room := { room with mapData := mapData }
      let st2 : ServerState := { st with rooms := aset rid room2 st.rooms }
      (st2, broadcast st2 rid (OutMsg.map_reload mapData) none
            ++ [(c, OutMsg.info "Map synced to all players!")])

/-- Message handler (`ws.on('message')`): an unparseable payload is
dropped before any lookup; a payload from an unregistered connection is
dropped; otherwise dispatch on the `type` field, where an unknown type
falls through the switch with no effect. -/
def handleMessage (st : ServerState) (c : Nat) (msg : InMsg) : ServerState × Deliveries :=
  match msg with
  | InMsg.malformed => (st, [])
  | _ =>
    match alookup c st.clients with
    | none => (st, [])
    | some sess =>
      match msg with
      | InMsg.join_room rid nm col => handleJoin st c sess rid nm col
      | InMsg.move x y z rotY => handleMove st c sess x y z rotY
      | InMsg.chat t => handleChat st c sess t
      | InMsg.place_block x y z bt => handlePlace st c sess x y z bt
      | InMsg.save_map l => handleSave st c sess l
      | InMsg.ping => (st, [(c, OutMsg.pong st.now)])
      | _ => (st, [])

/-- External events driving the server. -/
inductive Event where
  | connect (c : Nat)
  | message (c : Nat) (msg : InMsg)
  | close (c : Nat)
  | errorEv (c : Nat)
deriving DecidableEq, Repr

/-- One event step of the fixed variant: the error event only logs. -/
def step (st : ServerState) : Event → ServerState × Deliveries
  | Event.connect c => connect st c
  | Event.message c msg => handleMessage st c msg
  | Event.close c => closeConn st c
  | Event.errorEv _ => (st, [])

end BlockVerse

namespace ServerJs

open BlockVerse

/-!
Embedding of the `src/server.js`-specific pieces.

`src/server.js` stores its connection registry in a plain JS object
(`const clients = {}`) indexed by the WebSocket object itself
(`clients[ws]`).  A plain-object property access coerces its key with
`ToPropertyKey`, i.e. `String(ws)`, and every WebSocket stringifies to
"[object WebSocket]", so all connections read and write the very same
slot.  The fixed variant in `src/unnamed/part_000` documents exactly
this ("Plain \x7b\x7d converts any object key ... causing ALL clients to
collide on the exact same slot!").  `jsKeyOf`, `registerClient` and
`lookupClient` embed that plain-object registry.

Two embeddings of the `src/server.js` handlers follow.

`leaveRoom` and `handleJoinRoom` work over the shared state type with
the registry keyed by connection identity — the keying the source
intends and the fixed variant implements, but NOT what the plain
object does for more than one connection.  They are therefore used
only for properties of the `join_room` error branches, which return
before reading or writing any registry state, so the keying cannot
matter there.

`JsObjState` and the `...Obj` handlers below them embed the same
`src/server.js` code with the registry exactly as the plain object
behaves: every access goes through `jsKeyOf`, so all connections share
one slot.  Multi-connection behaviour of `src/server.js` is stated
against these.
-/

/-- Property key produced by `clients[ws]` for a plain JS object:
`String(ws)`, which is "[object WebSocket]" for every ws. -/
def jsKeyOf (_c : Nat) : String := "[object WebSocket]"

/-- Plain-object registry write `clients[ws] = info` of `src/server.js`. -/
def registerClient (reg : List (String × Session)) (c : Nat) (s : Session) :
    List (String × Session) :=
  aset (jsKeyOf c) s reg

/-- Plain-object registry read `clients[ws]` of `src/server.js`. -/
def lookupClient (reg : List (String × Session)) (c : Nat) : Option Session :=
  alookup (jsKeyOf c) reg

/-- Leave helper of `src/server.js` (`leaveRoom`): when the session
names a room holding this player, remove the player, append a system
chat line (without trimming), broadcast `player_left` then the system
chat; in every case the session is finally deleted from the registry.
This version idealizes the registry keying to per-connection; it exists
only because `handleJoinRoom` references it, and no theorem exercises
it (the `join_room` error branches return first).  The faithful
string-keyed embedding of the same source lines is `leaveRoomObj`. -/
def leaveRoom (st : ServerState) (c : Nat) : ServerState × Deliveries :=
  match alookup c st.clients with
  | none => ({ st with clients := adel c st.clients }, [])
  | some sess =>
    match sess.roomId with
    | none => ({ st with clients := adel c st.clients }, [])
    | some rid =>
      match alookup rid st.rooms with
      | none => ({ st with clients := adel c st.clients }, [])
      | some room =>
        match alookup sess.playerId room.players with
        | none => ({ st with clients := adel c st.clients }, [])
        | some _ =>
          let sysMsg := ChatMsg.mk "System" "#ff6b35" (sess.name ++ " left the game.") st.now
          let room2 : Room :=
            { room with players := adel sess.playerId room.players,
                        chatHistory := room.chatHistory ++ [sysMsg] }
          let st1 : ServerState := { st with rooms := aset rid room2 st.rooms }
          let out := broadcast st1 rid (OutMsg.player_left sess.playerId) none
                     ++ broadcast st1 rid (OutMsg.chat sysMsg) none
          ({ st1 with clients := adel c st1.clients }, out)

/-- Handler of `case 'join_room'` in `src/server.js`: the lookup and
capacity checks reply with an error and return before touching any
state; otherwise the previous room is left (which deletes the session
from the registry — the source then mutates the orphaned `info` object,
so the registry regains the session only when no leave happened), the
player is created at a fresh random spawn, and the snapshot, the
`player_joined` broadcast and the system chat follow.  A registered
session is required on the success path (the source would throw
otherwise); that case is modelled as a stuck no-op. -/
def handleJoinRoom (st : ServerState) (c : Nat) (roomId : String)
    (nm col : Option String) : ServerState × Deliveries :=
  match alookup roomId st.rooms with
  | none => (st, [(c, OutMsg.error "Room not found")])
  | some room =>
    if room.maxPlayers ≤ room.players.length then
      (st, [(c, OutMsg.error "Room is full")])
    else
      match alookup c st.clients with
      | none => (st, [])
      | some sess =>
        let r0 := if sess.roomId.isSome then leaveRoom st c else (st, [])
        let st1 := r0.1
        let outLeave := r0.2
        let sx := (draw st1.rng).1
        let rng1 := (draw st1.rng).2
        let sz := (draw rng1).1
        let rng2 := (draw rng1).2
        let pid := sess.playerId
        let name := nm.getD ("Player_" ++ toString pid)
        let colr := match col with
          | some cc => (cc, rng2)
          | none => ("#" ++ toString ((draw rng2).1.natAbs % 16777216), (draw rng2).2)
        let color := colr.1
        let rng3 := colr.2
        let clients2 := if sess.roomId.isSome then st1.clients
          else aset c (Session.mk pid (some roomId) name) st1.clients
        match alookup roomId st1.rooms with
        | none => (st1, outLeave)
        | some room1 =>
          let player := Player.mk pid name color sx 2 sz 0
          let room2 : Room := { room1 with players := aset pid player room1.players }
          let st2 : ServerState :=
            { st1 with rooms := aset roomId room2 st1.rooms,
                       clients := clients2, rng := rng3 }
          let joined := (c, OutMsg.room_joined roomId room2.name pid room2.players
                            room2.mapData (lastN 30 room2.chatHistory))
          let bc1 := broadcast st2 roomId (OutMsg.player_joined player) (some c)
          let sysMsg := ChatMsg.mk "System" "#00e5ff" (name ++ " joined the game!") st2.now
          let room3 : Room := { room2 with chatHistory := room2.chatHistory ++ [sysMsg] }
          let st3 : ServerState := { st2 with rooms := aset roomId room3 st2.rooms }
          let bc2 := broadcast st3 roomId (OutMsg.chat sysMsg) none
          (st3, outLeave ++ joined :: (bc1 ++ bc2))

/-- Server state of `src/server.js` with the registry exactly as the
plain object behaves: `clients` is keyed by the property string, so all
connections share the slot at "[object WebSocket]".  `closurePid` maps
each connection to the `playerId` its connection handler closed over
(closures are genuinely per-connection, unlike the registry). -/
structure JsObjState where
  rooms : List (String × Room)
  clients : List (String × Session)
  openConns : List Nat
  closurePid : List (Nat × Nat)
  rng : List Int
  now : Nat
  nextId : Nat
deriving DecidableEq, Repr

/-- Membership test of the `src/server.js` broadcast: the registry read
`clients[ws]` goes through the shared property key. -/
def inRoomObjB (st : JsObjState) (rid : String) (w : Nat) : Bool :=
  match alookup (jsKeyOf w) st.clients with
  | some sess => decide (sess.roomId = some rid)
  | none => false

/-- Broadcast of `src/server.js` over the plain-object registry:
deliver to every open connection whose registry read lands in room
`rid`, except `skip`. -/
def broadcastObj (st : JsObjState) (rid : String) (msg : OutMsg)
    (skip : Option Nat) : Deliveries :=
  (st.openConns.filter (fun w => decide (some w ≠ skip) && inRoomObjB st rid w)).map
    (fun w => (w, msg))

/-- Connection handler of `src/server.js` over the plain-object
registry: generate a fresh player id (the closure `playerId`), write
the session into `clients[ws]` — the shared slot — and send `welcome`. -/
def connectObj (st : JsObjState) (c : Nat) : JsObjState × Deliveries :=
  let pid := st.nextId
  let st1 : JsObjState :=
    { st with clients := aset (jsKeyOf c) (Session.mk pid none "Player") st.clients,
              openConns := st.openConns ++ [c],
              closurePid := aset c pid st.closurePid,
              nextId := st.nextId + 1 }
  (st1, [(c, OutMsg.welcome pid
    (st1.rooms.map (fun p => RoomMeta.mk p.2.id p.2.name p.2.players.length p.2.maxPlayers)))])

/-- Leave helper of `src/server.js` (`leaveRoom`) over the plain-object
registry: the session is read from and deleted at the shared slot, so
after another connection has registered, this reads that connection's
session instead of the leaver's. -/
def leaveRoomObj (st : JsObjState) (c : Nat) : JsObjState × Deliveries :=
  match alookup (jsKeyOf c) st.clients with
  | none => ({ st with clients := adel (jsKeyOf c) st.clients }, [])
  | some sess =>
    match sess.roomId with
    | none => ({ st with clients := adel (jsKeyOf c) st.clients }, [])
    | some rid =>
      match alookup rid st.rooms with
      | none => ({ st with clients := adel (jsKeyOf c) st.clients }, [])
      | some room =>
        match alookup sess.playerId room.players with
        | none => ({ st with clients := adel (jsKeyOf c) st.clients }, [])
        | some _ =>
          let sysMsg := ChatMsg.mk "System" "#ff6b35" (sess.name ++ " left the game.") st.now
          let room2 : Room :=
            { room with players := adel sess.playerId room.players,
                        chatHistory := room.chatHistory ++ [sysMsg] }
          let st1 : JsObjState := { st with rooms := aset rid room2 st.rooms }
          let out := broadcastObj st1 rid (OutMsg.player_left sess.playerId) none
                     ++ broadcastObj st1 rid (OutMsg.chat sysMsg) none
          ({ st1 with clients := adel (jsKeyOf c) st1.clients }, out)

/-- Close event of `src/server.js`
(`ws.on('close', () => leaveRoom(ws))`): the socket has left the open
set when the handler runs. -/
def closeObj (st : JsObjState) (c : Nat) : JsObjState × Deliveries :=
  leaveRoomObj { st with openConns := st.openConns.erase c } c

/-- Error event of `src/server.js`
(`ws.on('error', () => leaveRoom(ws))`). -/
def errorObj (st : JsObjState) (c : Nat) : JsObjState × Deliveries :=
  leaveRoomObj st c

/-- Handler of `case 'join_room'` in `src/server.js` over the
plain-object registry.  `info` is read from the shared slot; the player
inserted into the room and the ids in `room_joined` use the closure
`playerId` of the connection (looked up in `closurePid`; a connection
always has one, the none branch is unreachable).  When a leave ran, the
source mutates the now-orphaned `info` object, so the registry regains
a session only when no leave happened. -/
def joinRoomObj (st : JsObjState) (c : Nat) (roomId : String)
    (nm col : Option String) : JsObjState × Deliveries :=
  match alookup c st.closurePid with
  | none => (st, [])
  | some pidClosure =>
    match alookup roomId st.rooms with
    | none => (st, [(c, OutMsg.error "Room not found")])
    | some room =>
      if room.maxPlayers ≤ room.players.length then
        (st, [(c, OutMsg.error "Room is full")])
      else
        match alookup (jsKeyOf c) st.clients with
        | none => (st, [])
        | some info =>
          let r0 := if info.roomId.isSome then leaveRoomObj st c else (st, [])
          let st1 := r0.1
          let outLeave := r0.2
          let sx := (draw st1.rng).1
          let rng1 := (draw st1.rng).2
          let sz := (draw rng1).1
          let rng2 := (draw rng1).2
          let name := nm.getD ("Player_" ++ toString pidClosure)
          let colr := match col with
            | some cc => (cc, rng2)
            | none => ("#" ++ toString ((draw rng2).1.natAbs % 16777216), (draw rng2).2)
          let color := colr.1
          let rng3 := colr.2
          let clients2 := if info.roomId.isSome then st1.clients
            else aset (jsKeyOf c) (Session.mk info.playerId (some roomId) name) st1.clients
          match alookup roomId st1.rooms with
          | none => (st1, outLeave)
          | some room1 =>
            let player := Player.mk pidClosure name color sx 2 sz 0
            let room2 : Room := { room1 with players := aset pidClosure player room1.players }
            let st2 : JsObjState :=
              { st1 with rooms := aset roomId room2 st1.rooms,
                         clients := clients2, rng := rng3 }
            let joined := (c, OutMsg.room_joined roomId room2.name pidClosure room2.players
                              room2.mapData (lastN 30 room2.chatHistory))
            let bc1 := broadcastObj st2 roomId (OutMsg.player_joined player) (some c)
            let sysMsg := ChatMsg.mk "System" "#00e5ff" (name ++ " joined the game!") st2.now
            let room3 : Room := { room2 with chatHistory := room2.chatHistory ++ [sysMsg] }
            let st3 : JsObjState := { st2 with rooms := aset roomId room3 st2.rooms }
            let bc2 := broadcastObj st3 roomId (OutMsg.chat sysMsg) none
            (st3, outLeave ++ joined :: (bc1 ++ bc2))

/-- Number of players a room of the plain-object-registry state holds
(0 when the room does not exist). -/
def jsRoomPlayersCount (st : JsObjState) (rid : String) : Nat :=
  match alookup rid st.rooms with
  | some r => r.players.length
  | none => 0

/-- Player ids present in a room of the plain-object-registry state. -/
def jsRoomPlayerIds (st : JsObjState) (rid : String) : List Nat :=
  match alookup rid st.rooms with
  | some r => r.players.map Prod.fst
  | none => []

/-- Ghost-player trace, step 0: a fresh `src/server.js` state with one
empty room `r`. -/
def jsGhost0 : JsObjState :=
  JsObjState.mk [("r", Room.mk "r" "R" 20 [] [] [])] [] [] [] [0, 0] 0 1

/-- Ghost-player trace, step 1: connection 0 connects (player id 1). -/
def jsGhost1 : JsObjState := (connectObj jsGhost0 0).1

/-- Ghost-player trace, step 2: connection 0 joins room `r`. -/
def jsGhost2 : JsObjState := (joinRoomObj jsGhost1 0 "r" none none).1

/-- Ghost-player trace, step 3: connection 5 connects (player id 2) —
its registration overwrites the single shared registry slot, erasing
connection 0's session. -/
def jsGhost3 : JsObjState := (connectObj jsGhost2 5).1

end ServerJs

namespace BlockVerse

/-! Observers and auxiliary definitions used to state the claims, plus
concrete states used by counterexamples and witnesses. -/

/-- Chat-history length of a room, 0 when the room does not exist. -/
def roomHistoryLength (st : ServerState) (rid : String) : Nat :=
  match alookup rid st.rooms with
  | some r => r.chatHistory.length
  | none => 0

/-- Block map of a room, empty when the room does not exist. -/
def roomMapData (st : ServerState) (rid : String) : List Block :=
  match alookup rid st.rooms with
  | some r => r.mapData
  | none => []

/-- Coordinate triple of a block. -/
def coordOf (b : Block) : Int × Int × Int := (b.x, b.y, b.z)

/-- Number of map entries at an exact coordinate. -/
def countAt (m : List Block) (x y z : Int) : Nat :=
  m.countP (fun b => decide (b.x = x) && decide (b.y = y) && decide (b.z = z))

/-- At most one entry per coordinate, stated as no duplicate coordinate
triples. -/
def nodupCoords (m : List Block) : Prop :=
  (m.map coordOf).Nodup

instance (m : List Block) : Decidable (nodupCoords m) := by
  unfold nodupCoords
  infer_instance

/-- Arguments of one `place_block` operation. -/
structure PlaceOp where
  x : Int
  y : Int
  z : Int
  blockType : String
deriving DecidableEq, Repr

/-- Apply a sequence of `place_block` operations to a block map, each
through the handler's `placeBlockMap` transform. -/
def applyPlaces (m : List Block) (ops : List PlaceOp) : List Block :=
  ops.foldl (fun acc o => placeBlockMap acc o.x o.y o.z o.blockType) m

/-- Block type written by the last operation of the sequence that
targets the given coordinate, if any. -/
def lastTypeAt (ops : List PlaceOp) (x y z : Int) : Option String :=
  ops.foldl
    (fun acc o => if o.x = x ∧ o.y = y ∧ o.z = z then some o.blockType else acc)
    none

/-- Is the outbound message a chat broadcast? -/
def isChat : OutMsg → Bool
  | OutMsg.chat _ => true
  | _ => false

/-- Number of times the exact delivery (connection `d`, message `m`)
occurs in a delivery list. -/
def countDel (out : Deliveries) (d : Nat) (m : OutMsg) : Nat :=
  out.countP (fun e => decide (e.1 = d) && decide (e.2 = m))

/-- Player ids carried by the `room_joined` replies delivered to
connection `c`. -/
def roomJoinedPids (out : Deliveries) (c : Nat) : List Nat :=
  out.filterMap (fun e =>
    if e.1 = c then
      match e.2 with
      | OutMsg.room_joined _ _ pid _ _ _ => some pid
      | _ => none
    else none)

/-- Capacity invariant: every room of the directory holds at most its
maximum number of players. -/
def roomsCapOK (st : ServerState) : Prop :=
  ∀ p ∈ st.rooms, p.2.players.length ≤ p.2.maxPlayers

instance (st : ServerState) : Decidable (roomsCapOK st) := by
  unfold roomsCapOK
  infer_instance

/-- Degenerate decoration sampler used by concrete states. -/
def deco0 : Nat → Int × Int := fun _ => (0, 0)

/-- Chat history already at the 100-entry bound. -/
def chatFull : List ChatMsg :=
  List.replicate 100 (ChatMsg.mk "A" "#fff" "hi" 0)

/-- Concrete state: connection 0 is in room `room_1` as player 7. -/
def stRejoin : ServerState :=
  ServerState.mk
    [("room_1", Room.mk "room_1" "Main World" 20
        [(7, Player.mk 7 "Alice" "#abc" 1 2 3 0)] [] [])]
    [(0, Session.mk 7 (some "room_1") "Alice")]
    [0] [11, 22] 5 8

/-- Concrete state: room `room_1` already holds a full 100-entry chat
history and connection 0 is not yet in any room. -/
def stHist : ServerState :=
  ServerState.mk
    [("room_1", Room.mk "room_1" "Main World" 20 [] [] chatFull)]
    [(0, Session.mk 7 none "Player")]
    [0] [1, 2] 5 8

/-- Concrete state: connection 0 is in room `room_1`, whose map is the
generated starter map. -/
def stMap : ServerState :=
  ServerState.mk
    [("room_1", makeRoom deco0 "room_1" "Main World" 20)]
    [(0, Session.mk 7 (some "room_1") "Alice")]
    [0] [] 5 8

/-- Concrete state: room `solo` has capacity 1 and is occupied by
player 1; connection 0 is registered but in no room. -/
def stFull : ServerState :=
  ServerState.mk
    [("solo", Room.mk "solo" "Solo" 1 [(1, Player.mk 1 "B" "#fff" 0 2 0 0)] [] [])]
    [(0, Session.mk 2 none "P")]
    [0] [] 0 9

/-- Concrete state: room `solo` has capacity 1 and is occupied by
player 7, the player of connection 0 itself. -/
def stSelfFull : ServerState :=
  ServerState.mk
    [("solo", Room.mk "solo" "Solo" 1 [(7, Player.mk 7 "A" "#fff" 0 2 0 0)] [] [])]
    [(0, Session.mk 7 (some "solo") "A")]
    [0] [] 0 8

/-- Concrete state: connections 0 and 5 are both in room `r` as
players 1 and 2. -/
def stTwo : ServerState :=
  ServerState.mk
    [("r", Room.mk "r" "R" 20
        [(1, Player.mk 1 "A" "#fff" 0 2 0 0), (2, Player.mk 2 "B" "#fff" 0 2 0 0)] [] [])]
    [(0, Session.mk 1 (some "r") "A"), (5, Session.mk 2 (some "r") "B")]
    [0, 5] [] 0 9

/-! Helper lemmas about the association-list registry operations and
the broadcast router. -/

theorem alookup_aset_self {κ α : Type} [DecidableEq κ] (k : κ) (v : α)
    (l : List (κ × α)) : alookup k (aset k v l) = some v := by
  induction l with
  | nil => simp [aset, alookup]
  | cons p r ih =>
    obtain ⟨k0, v0⟩ := p
    by_cases h : k0 = k
    · subst h; simp [aset, alookup]
    · simp [aset, h, alookup, ih]

theorem alookup_aset_ne {κ α : Type} [DecidableEq κ] {k k1 : κ} (v : α)
    (l : List (κ × α)) (hne : k1 ≠ k) :
    alookup k1 (aset k v l) = alookup k1 l := by
  have hkk : ¬(k = k1) := fun h => hne h.symm
  induction l with
  | nil => simp [aset, alookup, hkk]
  | cons p r ih =>
    obtain ⟨k0, v0⟩ := p
    by_cases h : k0 = k
    · subst h; simp [aset, alookup, hkk]
    · simp [aset, h, alookup, ih]

theorem alookup_adel_self {κ α : Type} [DecidableEq κ] (k : κ)
    (l : List (κ × α)) : alookup k (adel k l) = none := by
  induction l with
  | nil => simp [adel, alookup]
  | cons p r ih =>
    obtain ⟨k0, v0⟩ := p
    by_cases h : k0 = k
    · simpa [adel, h, alookup] using ih
    · simpa [adel, h, alookup] using ih

theorem alookup_adel_ne {κ α : Type} [DecidableEq κ] {k k1 : κ}
    (l : List (κ × α)) (hne : k1 ≠ k) :
    alookup k1 (adel k l) = alookup k1 l := by
  induction l with
  | nil => simp [adel, alookup]
  | cons p r ih =>
    obtain ⟨k0, v0⟩ := p
    by_cases h : k0 = k
    · subst h
      have hkk : ¬(k0 = k1) := fun h => hne h.symm
      simpa [adel, alookup, hkk] using ih
    · by_cases h1 : k0 = k1
      · subst h1; simp [adel, h, alookup]
      · simpa [adel, h, alookup, h1] using ih

theorem length_aset_le {κ α : Type} [DecidableEq κ] (k : κ) (v : α)
    (l : List (κ × α)) : (aset k v l).length ≤ l.length + 1 := by
  induction l with
  | nil => simp [aset]
  | cons p r ih =>
    obtain ⟨k0, v0⟩ := p
    by_cases h : k0 = k
    · simp [aset, h]
    · simpa [aset, h] using Nat.succ_le_succ ih

theorem length_aset_of_mem {κ α : Type} [DecidableEq κ] {k : κ} (v : α)
    {l : List (κ × α)} {w : α} (hm : alookup k l = some w) :
    (aset k v l).length = l.length := by
  induction l with
  | nil => simp [alookup] at hm
  | cons p r ih =>
    obtain ⟨k0, v0⟩ := p
    by_cases h : k0 = k
    · simp [aset, h]
    · simp only [alookup, h, if_false] at hm
      simpa [aset, h] using ih hm

theorem length_adel_le {κ α : Type} [DecidableEq κ] (k : κ)
    (l : List (κ × α)) : (adel k l).length ≤ l.length :=
  List.length_filter_le _ l

theorem adel_of_not_mem {κ α : Type} [DecidableEq κ] {k : κ}
    {l : List (κ × α)} (h : k ∉ l.map Prod.fst) : adel k l = l := by
  induction l with
  | nil => rfl
  | cons p r ih =>
    obtain ⟨k0, v0⟩ := p
    simp only [List.map_cons, List.mem_cons, not_or] at h
    have hk : k0 ≠ k := fun he => h.1 he.symm
    have h1 : adel k ((k0, v0) :: r) = (k0, v0) :: adel k r := by
      simp [adel, hk]
    rw [h1, ih h.2]

theorem length_adel_nodup {κ α : Type} [DecidableEq κ] {k : κ}
    {l : List (κ × α)} {v : α} (hnd : (l.map Prod.fst).Nodup)
    (hm : alookup k l = some v) : (adel k l).length + 1 = l.length := by
  induction l with
  | nil => simp [alookup] at hm
  | cons p r ih =>
    obtain ⟨k0, v0⟩ := p
    simp only [List.map_cons, List.nodup_cons] at hnd
    by_cases h : k0 = k
    · subst h
      have h2 : adel k0 r = r := adel_of_not_mem hnd.1
      have h1 : adel k0 ((k0, v0) :: r) = adel k0 r := by
        simp [adel]
      rw [h1, h2]
      simp
    · have h1 : adel k ((k0, v0) :: r) = (k0, v0) :: adel k r := by
        have hk : k0 ≠ k := h
        simp [adel, hk]
      simp only [alookup, h, if_false] at hm
      rw [h1]
      simpa using ih hnd.2 hm

theorem mem_broadcast {st : ServerState} {rid : String} {msg m : OutMsg}
    {skip : Option Nat} {d : Nat} :
    (d, m) ∈ broadcast st rid msg skip ↔
      m = msg ∧ d ∈ st.openConns ∧ some d ≠ skip ∧ inRoomB st rid d = true := by
  simp only [broadcast, List.mem_map, List.mem_filter, Bool.and_eq_true,
    decide_eq_true_eq, Prod.mk.injEq]
  constructor
  · rintro ⟨w, ⟨hw, hskip, hroom⟩, hwd, hm⟩
    subst hwd
    exact ⟨hm.symm, hw, hskip, hroom⟩
  · rintro ⟨hm, hd, hskip, hroom⟩
    exact ⟨d, ⟨hd, hskip, hroom⟩, rfl, hm.symm⟩

theorem countDel_append (o1 o2 : Deliveries) (d : Nat) (m : OutMsg) :
    countDel (o1 ++ o2) d m = countDel o1 d m + countDel o2 d m :=
  List.countP_append _ _ _

theorem countDel_broadcast_ne {st : ServerState} {rid : String}
    {msg m : OutMsg} {skip : Option Nat} {d : Nat} (hne : m ≠ msg) :
    countDel (broadcast st rid msg skip) d m = 0 := by
  refine List.countP_eq_zero.2 (fun e he => ?_)
  obtain ⟨w, _, hw⟩ := List.mem_map.mp he
  subst hw
  simp only [Bool.and_eq_true, decide_eq_true_eq, not_and]
  exact fun _ h => hne h.symm

theorem countDel_broadcast_self {st : ServerState} {rid : String}
    {msg : OutMsg} {skip : Option Nat} {d : Nat} :
    countDel (broadcast st rid msg skip) d msg =
      (st.openConns.filter
        (fun w => decide (some w ≠ skip) && inRoomB st rid w)).countP
        (fun w => decide (w = d)) := by
  unfold countDel broadcast
  rw [List.countP_map]
  refine List.countP_congr (fun w _ => ?_)
  simp [Function.comp]

theorem countP_eq_one_of_nodup_mem {l : List Nat} {d : Nat}
    (hnd : l.Nodup) (hd : d ∈ l) :
    l.countP (fun w => decide (w = d)) = 1 := by
  induction l with
  | nil => simp at hd
  | cons a r ih =>
    simp only [List.nodup_cons] at hnd
    rcases List.mem_cons.mp hd with h | h
    · have h0 : r.countP (fun w => decide (w = d)) = 0 := by
        refine List.countP_eq_zero.2 (fun w hw => ?_)
        simp only [decide_eq_true_eq]
        intro he
        apply hnd.1
        rw [← h, ← he]
        exact hw
      rw [List.countP_cons, h0]
      simp [← h]
    · have hne : ¬(a = d) := fun he => hnd.1 (by rw [← he] at h; exact h)
      rw [List.countP_cons, ih hnd.2 h]
      simp [hne]

theorem alookup_mem {κ α : Type} [DecidableEq κ] {k : κ} {v : α}
    {l : List (κ × α)} (h : alookup k l = some v) : (k, v) ∈ l := by
  induction l with
  | nil => simp [alookup] at h
  | cons p r ih =>
    obtain ⟨k0, v0⟩ := p
    by_cases he : k0 = k
    · subst he
      have h2 : alookup k0 ((k0, v0) :: r) = some v0 := by simp [alookup]
      rw [h2] at h
      cases h
      exact List.mem_cons_self _ _
    · simp only [alookup, he, if_false] at h
      exact List.mem_cons_of_mem _ (ih h)

theorem mem_aset {κ α : Type} [DecidableEq κ] {k : κ} {v : α}
    {l : List (κ × α)} {p : κ × α} (h : p ∈ aset k v l) :
    p = (k, v) ∨ p ∈ l := by
  induction l with
  | nil => simpa [aset] using h
  | cons q r ih =>
    obtain ⟨k0, v0⟩ := q
    by_cases he : k0 = k
    · simp only [aset, he, if_pos rfl] at h
      rcases List.mem_cons.mp h with h1 | h1
      · exact Or.inl h1
      · exact Or.inr (List.mem_cons_of_mem _ h1)
    · simp only [aset, he, if_false] at h
      rcases List.mem_cons.mp h with h1 | h1
      · exact Or.inr (h1 ▸ List.mem_cons_self _ _)
      · rcases ih h1 with h2 | h2
        · exact Or.inl h2
        · exact Or.inr (List.mem_cons_of_mem _ h2)

theorem countP_broadcast (st : ServerState) (rid : String) (msg : OutMsg)
    (skip : Option Nat) (d : Nat) (q : OutMsg → Bool) :
    (broadcast st rid msg skip).countP (fun e => decide (e.1 = d) && q e.2) =
      if q msg then
        (st.openConns.filter
          (fun w => decide (some w ≠ skip) && inRoomB st rid w)).countP
          (fun w => decide (w = d))
      else 0 := by
  unfold broadcast
  rw [List.countP_map]
  by_cases hq : q msg = true
  · rw [if_pos hq]
    refine List.countP_congr (fun w _ => ?_)
    simp [Function.comp, hq]
  · rw [if_neg hq]
    refine List.countP_eq_zero.2 (fun w _ => ?_)
    simp only [Function.comp_apply, Bool.and_eq_true, decide_eq_true_eq, not_and]
    exact fun _ => hq

/-! Lemmas about the single-cell map transform of `place_block`. -/

theorem countAt_filter_self (m : List Block) (x y z : Int) :
    countAt
      (m.filter (fun b =>
        !(decide (b.x = x) && decide (b.y = y) && decide (b.z = z)))) x y z = 0 := by
  unfold countAt
  rw [List.countP_filter]
  refine List.countP_eq_zero.2 (fun bl _ => ?_)
  simp [Bool.and_not_self]

theorem countAt_filter_ne (m : List Block) (x y z a b c2 : Int)
    (h : ¬(x = a ∧ y = b ∧ z = c2)) :
    countAt
      (m.filter (fun bl =>
        !(decide (bl.x = a) && decide (bl.y = b) && decide (bl.z = c2)))) x y z =
      countAt m x y z := by
  unfold countAt
  rw [List.countP_filter]
  refine List.countP_congr (fun bl _ => ?_)
  cases hxyz : (decide (bl.x = x) && decide (bl.y = y) && decide (bl.z = z)) with
  | false => simp [hxyz]
  | true =>
    have hab : (decide (bl.x = a) && decide (bl.y = b) && decide (bl.z = c2)) = false := by
      simp only [Bool.and_eq_true, decide_eq_true_eq] at hxyz
      obtain ⟨⟨e1, e2⟩, e3⟩ := hxyz
      by_contra hcon
      simp only [Bool.not_eq_false, Bool.and_eq_true, decide_eq_true_eq] at hcon
      obtain ⟨⟨f1, f2⟩, f3⟩ := hcon
      exact h ⟨by rw [← e1]; exact f1, by rw [← e2]; exact f2, by rw [← e3]; exact f3⟩
    simp [hxyz, hab]

theorem countAt_singleton_self (x y z : Int) (bt : String) :
    countAt [Block.mk x y z bt] x y z = 1 := by
  simp [countAt]

theorem countAt_singleton_ne (a b c2 x y z : Int) (bt : String)
    (h : ¬(x = a ∧ y = b ∧ z = c2)) :
    countAt [Block.mk a b c2 bt] x y z = 0 := by
  simp only [countAt, List.countP_cons, List.countP_nil]
  have : (decide ((Block.mk a b c2 bt).x = x) && decide ((Block.mk a b c2 bt).y = y)
      && decide ((Block.mk a b c2 bt).z = z)) = false := by
    by_contra hcon
    simp only [Bool.not_eq_false, Bool.and_eq_true, decide_eq_true_eq] at hcon
    obtain ⟨⟨f1, f2⟩, f3⟩ := hcon
    exact h ⟨f1.symm, f2.symm, f3.symm⟩
  simp [this]

theorem countAt_append (l1 l2 : List Block) (x y z : Int) :
    countAt (l1 ++ l2) x y z = countAt l1 x y z + countAt l2 x y z :=
  List.countP_append _ _ _

theorem countAt_placeBlockMap_self (m : List Block) (x y z : Int) (bt : String) :
    countAt (placeBlockMap m x y z bt) x y z = if bt = "air" then 0 else 1 := by
  unfold placeBlockMap
  by_cases hbt : bt = "air"
  · simp only [hbt, ne_eq, not_true_eq_false, if_false, if_pos rfl]
    exact countAt_filter_self m x y z
  · simp only [ne_eq, hbt, not_false_eq_true, if_true, if_neg hbt]
    rw [countAt_append, countAt_filter_self, countAt_singleton_self]
    simp [hbt]

theorem countAt_placeBlockMap_ne (m : List Block) (a b c2 x y z : Int) (bt : String)
    (h : ¬(x = a ∧ y = b ∧ z = c2)) :
    countAt (placeBlockMap m a b c2 bt) x y z = countAt m x y z := by
  unfold placeBlockMap
  by_cases hbt : bt = "air"
  · simp only [hbt, ne_eq, not_true_eq_false, if_false]
    exact countAt_filter_ne m x y z a b c2 h
  · simp only [ne_eq, hbt, not_false_eq_true, if_true]
    rw [countAt_append, countAt_filter_ne m x y z a b c2 h,
      countAt_singleton_ne a b c2 x y z bt h]
    simp

theorem nodupCoords_placeBlockMap (m : List Block) (x y z : Int) (bt : String)
    (h : nodupCoords m) : nodupCoords (placeBlockMap m x y z bt) := by
  unfold placeBlockMap
  set p := fun bl : Block =>
    !(decide (bl.x = x) && decide (bl.y = y) && decide (bl.z = z)) with hp
  have hfl : nodupCoords (m.filter p) :=
    ((List.filter_sublist m).map coordOf).nodup h
  by_cases hbt : bt = "air"
  · simpa [hbt] using hfl
  · simp only [ne_eq, hbt, not_false_eq_true, if_true]
    unfold nodupCoords at hfl ⊢
    rw [List.map_append]
    refine List.Nodup.append hfl (List.nodup_singleton _) ?_
    intro q hq1 hq2
    simp only [List.map_cons, List.map_nil, List.mem_singleton] at hq2
    obtain ⟨bl, hbl, hco⟩ := List.mem_map.mp hq1
    have hpb := (List.mem_filter.mp hbl).2
    rw [hp] at hpb
    simp only [Bool.not_eq_true', Bool.and_eq_false_iff, decide_eq_false_iff_not] at hpb
    have hco2 : bl.x = x ∧ bl.y = y ∧ bl.z = z := by
      rw [hq2] at hco
      simpa [coordOf, Prod.ext_iff] using hco
    rcases hpb with hpb | hpb
    · rcases hpb with hpb | hpb
      · exact hpb hco2.1
      · exact hpb hco2.2.1
    · exact hpb hco2.2.2

theorem nodupCoords_applyPlaces (m : List Block) (ops : List PlaceOp)
    (h : nodupCoords m) : nodupCoords (applyPlaces m ops) := by
  induction ops generalizing m with
  | nil => exact h
  | cons o r ih =>
    show nodupCoords (applyPlaces (placeBlockMap m o.x o.y o.z o.blockType) r)
    exact ih _ (nodupCoords_placeBlockMap m o.x o.y o.z o.blockType h)

theorem lastTypeAt_air_absent (m : List Block) (ops : List PlaceOp) (x y z : Int)
    (hair : lastTypeAt ops x y z = some "air") :
    countAt (applyPlaces m ops) x y z = 0 := by
  induction ops using List.reverseRecOn generalizing m with
  | nil => simp [lastTypeAt] at hair
  | append_singleton r o ih =>
    have happ : applyPlaces m (r ++ [o]) =
        placeBlockMap (applyPlaces m r) o.x o.y o.z o.blockType := by
      simp [applyPlaces, List.foldl_append]
    have hlast : lastTypeAt (r ++ [o]) x y z =
        if o.x = x ∧ o.y = y ∧ o.z = z then some o.blockType
        else lastTypeAt r x y z := by
      simp [lastTypeAt, List.foldl_append]
    rw [happ]
    by_cases hco : o.x = x ∧ o.y = y ∧ o.z = z
    · rw [hlast, if_pos hco] at hair
      have hbt : o.blockType = "air" := by simpa using hair
      rw [hco.1, hco.2.1, hco.2.2, hbt, countAt_placeBlockMap_self]
      simp
    · rw [hlast, if_neg hco] at hair
      rw [countAt_placeBlockMap_ne (applyPlaces m r) o.x o.y o.z x y z o.blockType
        (fun he => hco ⟨he.1.symm, he.2.1.symm, he.2.2.symm⟩)]
      exact ih _ hair

/-! Lemmas about the capacity behaviour of `doLeave` and the message
handlers. -/

theorem doLeave_rooms (st : ServerState) (c : Nat) (rid : String) (room1 : Room)
    (h : alookup rid (doLeave st c).1.rooms = some room1) :
    ∃ room0, alookup rid st.rooms = some room0
      ∧ room1.players.length ≤ room0.players.length
      ∧ room1.maxPlayers = room0.maxPlayers := by
  cases hc : alookup c st.clients with
  | none =>
    simp only [doLeave, hc] at h
    exact ⟨room1, h, Nat.le_refl _, rfl⟩
  | some sess =>
    cases hr : sess.roomId with
    | none =>
      simp only [doLeave, hc, hr] at h
      exact ⟨room1, h, Nat.le_refl _, rfl⟩
    | some rid0 =>
      cases hroom : alookup rid0 st.rooms with
      | none =>
        simp only [doLeave, hc, hr, hroom] at h
        exact ⟨room1, h, Nat.le_refl _, rfl⟩
      | some room =>
        simp only [doLeave, hc, hr, hroom] at h
        by_cases he : rid = rid0
        · subst he
          rw [alookup_aset_self] at h
          cases h
          exact ⟨room, hroom, length_adel_le _ _, rfl⟩
        · rw [alookup_aset_ne _ _ he] at h
          exact ⟨room1, h, Nat.le_refl _, rfl⟩

theorem doLeave_capOK (st : ServerState) (c : Nat) (h : roomsCapOK st) :
    roomsCapOK (doLeave st c).1 := by
  cases hc : alookup c st.clients with
  | none => simp only [doLeave, hc]; exact h
  | some sess =>
    cases hr : sess.roomId with
    | none => simp only [doLeave, hc, hr]; exact h
    | some rid0 =>
      cases hroom : alookup rid0 st.rooms with
      | none => simp only [doLeave, hc, hr, hroom]; exact h
      | some room =>
        simp only [doLeave, hc, hr, hroom]
        intro p hp
        simp only at hp
        rcases mem_aset hp with he | hmem
        · subst he
          simp only
          exact Nat.le_trans (length_adel_le _ _) (h _ (alookup_mem hroom))
        · exact h p hmem

theorem handleMove_capOK (st : ServerState) (c : Nat) (sess : Session)
    (x y z rotY : Int) (h : roomsCapOK st) :
    roomsCapOK (handleMove st c sess x y z rotY).1 := by
  cases hr : sess.roomId with
  | none => simp only [handleMove, hr]; exact h
  | some rid =>
    cases hroom : alookup rid st.rooms with
    | none => simp only [handleMove, hr, hroom]; exact h
    | some room =>
      cases hp : alookup sess.playerId room.players with
      | none => simp only [handleMove, hr, hroom, hp]; exact h
      | some p =>
        simp only [handleMove, hr, hroom, hp]
        intro q hq
        rcases mem_aset hq with he | hmem
        · subst he
          simp only
          rw [length_aset_of_mem _ hp]
          exact h _ (alookup_mem hroom)
        · exact h q hmem

theorem handleChat_capOK (st : ServerState) (c : Nat) (sess : Session)
    (t : String) (h : roomsCapOK st) :
    roomsCapOK (handleChat st c sess t).1 := by
  cases hr : sess.roomId with
  | none => simp only [handleChat, hr]; exact h
  | some rid =>
    cases hroom : alookup rid st.rooms with
    | none => simp only [handleChat, hr, hroom]; exact h
    | some room =>
      simp only [handleChat, hr, hroom]
      intro q hq
      rcases mem_aset hq with he | hmem
      · subst he
        simp only
        exact h _ (alookup_mem hroom)
      · exact h q hmem

theorem handlePlace_capOK (st : ServerState) (c : Nat) (sess : Session)
    (x y z : Int) (bt : String) (h : roomsCapOK st) :
    roomsCapOK (handlePlace st c sess x y z bt).1 := by
  cases hr : sess.roomId with
  | none => simp only [handlePlace, hr]; exact h
  | some rid =>
    cases hroom : alookup rid st.rooms with
    | none => simp only [handlePlace, hr, hroom]; exact h
    | some room =>
      simp only [handlePlace, hr, hroom]
      intro q hq
      rcases mem_aset hq with he | hmem
      · subst he
        simp only
        exact h _ (alookup_mem hroom)
      · exact h q hmem

theorem handleSave_capOK (st : ServerState) (c : Nat) (sess : Session)
    (l : List Block) (h : roomsCapOK st) :
    roomsCapOK (handleSave st c sess l).1 := by
  cases hr : sess.roomId with
  | none => simp only [handleSave, hr]; exact h
  | some rid =>
    cases hroom : alookup rid st.rooms with
    | none => simp only [handleSave, hr, hroom]; exact h
    | some room =>
      simp only [handleSave, hr, hroom]
      intro q hq
      rcases mem_aset hq with he | hmem
      · subst he
        simp only
        exact h _ (alookup_mem hroom)
      · exact h q hmem

theorem handleJoin_capOK (st : ServerState) (c : Nat) (sess : Session)
    (rid : String) (nm col : Option String) (h : roomsCapOK st) :
    roomsCapOK (handleJoin st c sess rid nm col).1 := by
  cases hroom : alookup rid st.rooms with
  | none => simp only [handleJoin, hroom]; exact h
  | some room =>
    by_cases hfull : room.maxPlayers ≤ room.players.length
    · simp only [handleJoin, hroom, if_pos hfull]; exact h
    · have hlt : room.players.length < room.maxPlayers := Nat.lt_of_not_le hfull
      cases hprev : sess.roomId with
      | none =>
        simp only [handleJoin, hroom, if_neg hfull, hprev, Option.isSome_none,
          Bool.false_eq_true, if_false]
        intro q hq
        rcases mem_aset hq with he | hmem
        · subst he
          simp only
          exact Nat.le_trans
            (Nat.le_trans (length_aset_le _ _ _) (Nat.succ_le_succ (Nat.le_refl _)))
            hlt
        · rcases mem_aset hmem with he2 | hmem2
          · subst he2
            simp only
            exact Nat.le_trans (length_aset_le _ _ _) hlt
          · exact h q hmem2
      | some rid0 =>
        cases hmatch : alookup rid (doLeave st c).1.rooms with
        | none =>
          simp only [handleJoin, hroom, if_neg hfull, hprev, Option.isSome_some,
            if_true, hmatch]
          exact doLeave_capOK st c h
        | some room1 =>
          obtain ⟨room0, h0, hle, hmax⟩ := doLeave_rooms st c rid room1 hmatch
          rw [hroom] at h0
          cases h0
          have hlt1 : room1.players.length < room1.maxPlayers := by
            rw [hmax]
            exact Nat.lt_of_le_of_lt hle hlt
          have hcap1 : roomsCapOK (doLeave st c).1 := doLeave_capOK st c h
          simp only [handleJoin, hroom, if_neg hfull, hprev, Option.isSome_some,
            if_true, hmatch]
          intro q hq
          rcases mem_aset hq with he | hmem
          · subst he
            simp only
            exact Nat.le_trans (length_aset_le _ _ _) hlt1
          · rcases mem_aset hmem with he2 | hmem2
            · subst he2
              simp only
              exact Nat.le_trans (length_aset_le _ _ _) hlt1
            · exact hcap1 q hmem2

end BlockVerse

open BlockVerse

/-! Claim theorems. -/

/-- Leave helper facts for the fixed variant's `doLeave`: when a
connection whose session is in room `rid` leaves, the room loses
exactly its player, and each open connection `d` registered in the room
receives exactly one `player_left` and exactly one system chat
delivery. -/
theorem doLeave_core (st : ServerState) (c d : Nat)
    (sess : Session) (rid : String) (room : Room) (p : Player)
    (hnodupO : st.openConns.Nodup)
    (hc : alookup c st.clients = some sess)
    (hr : sess.roomId = some rid)
    (hroom : alookup rid st.rooms = some room)
    (hp : alookup sess.playerId room.players = some p)
    (hkeys : (room.players.map Prod.fst).Nodup)
    (hd : d ∈ st.openConns) (hdR : inRoomB st rid d = true) :
    (∃ room2, alookup rid (doLeave st c).1.rooms = some room2
      ∧ room2.players.length + 1 = room.players.length)
    ∧ countDel (doLeave st c).2 d (OutMsg.player_left sess.playerId) = 1
    ∧ (doLeave st c).2.countP
        (fun e => decide (e.1 = d) && isChat e.2) = 1 := by
  simp only [doLeave, hc, hr, hroom]
  refine ⟨⟨_, alookup_aset_self _ _ _, ?_⟩, ?_, ?_⟩
  · exact length_adel_nodup hkeys hp
  · rw [countDel_append, countDel_broadcast_self, countDel_broadcast_ne (by simp)]
    rw [Nat.add_zero]
    refine countP_eq_one_of_nodup_mem (List.Nodup.filter _ hnodupO) ?_
    refine List.mem_filter.mpr ⟨hd, ?_⟩
    simp only [Bool.and_eq_true, decide_eq_true_eq]
    exact ⟨by simp, hdR⟩
  · rw [List.countP_append, countP_broadcast _ _ _ _ d isChat,
      countP_broadcast _ _ _ _ d isChat]
    rw [if_neg (by simp [isChat]), if_pos (by simp [isChat])]
    rw [Nat.zero_add]
    refine countP_eq_one_of_nodup_mem (List.Nodup.filter _ hnodupO) ?_
    refine List.mem_filter.mpr ⟨hd, ?_⟩
    simp only [Bool.and_eq_true, decide_eq_true_eq]
    exact ⟨by simp, hdR⟩

/-- Disconnect behaviour of the fixed variant, whose close handler runs
`doLeave` once and whose error handler only logs: a disconnect while in
a room, with the close and error events both firing, drops the room's
player count by exactly one and delivers exactly one `player_left` and
exactly one system chat to each remaining open occupant.  This is the
behaviour the disconnect claim describes; `src/server.js` breaks it
through its registry collision (see the ghost-player trace below). -/
theorem fixed_variant_disconnect_single_leave (st : ServerState) (c d : Nat)
    (sess : Session) (rid : String) (room : Room) (p : Player)
    (hnodupO : st.openConns.Nodup)
    (hc : alookup c st.clients = some sess)
    (hr : sess.roomId = some rid)
    (hroom : alookup rid st.rooms = some room)
    (hp : alookup sess.playerId room.players = some p)
    (hkeys : (room.players.map Prod.fst).Nodup)
    (hd : d ∈ st.openConns) (hdc : d ≠ c)
    (hdR : inRoomB st rid d = true) :
    (∃ room2,
      alookup rid (step (step st (Event.close c)).1 (Event.errorEv c)).1.rooms = some room2
      ∧ room2.players.length + 1 = room.players.length)
    ∧ countDel ((step st (Event.close c)).2
          ++ (step (step st (Event.close c)).1 (Event.errorEv c)).2)
        d (OutMsg.player_left sess.playerId) = 1
    ∧ ((step st (Event.close c)).2
          ++ (step (step st (Event.close c)).1 (Event.errorEv c)).2).countP
        (fun e => decide (e.1 = d) && isChat e.2) = 1 := by
  obtain ⟨⟨room2, hlook2, hlen2⟩, hcnt, hchat⟩ :=
    doLeave_core { st with openConns := st.openConns.erase c } c d sess rid room p
      (hnodupO.erase c) hc hr hroom hp hkeys
      ((List.mem_erase_of_ne hdc).mpr hd) hdR
  simp only [step, closeConn, List.append_nil]
  exact ⟨⟨room2, hlook2, hlen2⟩, hcnt, hchat⟩

/-- C1: the claim states that every open connection resolves to its own
session record and that no two distinct connections ever alias to the
same registry slot.  In `src/server.js` the registry is the plain
object `clients = {}` indexed by the WebSocket object, and plain-object
property access stringifies every WebSocket to the single key
"[object WebSocket]": after registering sessions for the distinct
connections 1 and 2, the lookup of connection 1 returns connection 2's
session, so registering one connection does alter the session another
connection resolves to.  The repository's fixed variant
(`src/unnamed/part_000`) documents exactly this bug and replaces the
object with a `Map`, so the claim is right and `src/server.js` is
wrong. -/
theorem registry_collision_on_plain_object_keys :
    (1 : Nat) ≠ 2 ∧
    ServerJs.lookupClient
      (ServerJs.registerClient
        (ServerJs.registerClient [] 1 (Session.mk 10 none "A"))
        2 (Session.mk 20 none "B")) 1 = some (Session.mk 20 none "B") ∧
    ¬ ServerJs.lookupClient
      (ServerJs.registerClient
        (ServerJs.registerClient [] 1 (Session.mk 10 none "A"))
        2 (Session.mk 20 none "B")) 1 = some (Session.mk 10 none "A") := by
  decide

/-- C8: a `join_room` naming a nonexistent room makes `src/server.js`
reply to the requester only with the error text "Room not found", and a
`join_room` naming a full room only with "Room is full"; in both error
cases the whole server state — the requester's session, the registry
and every room — is returned unchanged. -/
theorem join_errors_no_mutation (st : ServerState) (c : Nat) (rid : String)
    (nm col : Option String) :
    (alookup rid st.rooms = none →
      ServerJs.handleJoinRoom st c rid nm col =
        (st, [(c, OutMsg.error "Room not found")]))
    ∧ (∀ room, alookup rid st.rooms = some room →
        room.maxPlayers ≤ room.players.length →
        ServerJs.handleJoinRoom st c rid nm col =
          (st, [(c, OutMsg.error "Room is full")])) := by
  constructor
  · intro h
    simp only [ServerJs.handleJoinRoom, h]
  · intro room h hfull
    simp only [ServerJs.handleJoinRoom, h, if_pos hfull]

/-- Witness for C8 at a concrete state: an unknown room id and a full
capacity-1 room. -/
theorem join_errors_no_mutation_witness :
    (alookup "nope" stFull.rooms = none ∧
      ServerJs.handleJoinRoom stFull 0 "nope" none none =
        (stFull, [(0, OutMsg.error "Room not found")]))
    ∧ (alookup "solo" stFull.rooms =
        some (Room.mk "solo" "Solo" 1 [(1, Player.mk 1 "B" "#fff" 0 2 0 0)] [] []) ∧
      ServerJs.handleJoinRoom stFull 0 "solo" none none =
        (stFull, [(0, OutMsg.error "Room is full")])) :=
  ⟨⟨by decide, (join_errors_no_mutation stFull 0 "nope" none none).1 (by decide)⟩,
   ⟨by decide, (join_errors_no_mutation stFull 0 "solo" none none).2
      (Room.mk "solo" "Solo" 1 [(1, Player.mk 1 "B" "#fff" 0 2 0 0)] [] [])
      (by decide) (by decide)⟩⟩

/-- C10: when a connection is already in room `rid` and `rid` is at
full capacity, a `join_room` for `rid` itself is rejected by
`src/server.js` with the error "Room is full" and the whole state is
unchanged, so the requester's session still names `rid`: the capacity
check runs before the implicit leave, so the requester's own occupied
slot counts against it. -/
theorem self_full_join_rejected (st : ServerState) (c : Nat) (sess : Session)
    (rid : String) (room : Room) (nm col : Option String)
    (hc : alookup c st.clients = some sess)
    (hr : sess.roomId = some rid)
    (hroom : alookup rid st.rooms = some room)
    (hfull : room.maxPlayers ≤ room.players.length) :
    ServerJs.handleJoinRoom st c rid nm col =
      (st, [(c, OutMsg.error "Room is full")])
    ∧ alookup c (ServerJs.handleJoinRoom st c rid nm col).1.clients = some sess
    ∧ sess.roomId = some rid := by
  have h1 : ServerJs.handleJoinRoom st c rid nm col =
      (st, [(c, OutMsg.error "Room is full")]) := by
    simp only [ServerJs.handleJoinRoom, hroom, if_pos hfull]
  exact ⟨h1, by rw [h1]; exact hc, hr⟩

/-- Witness for C10 at a concrete state: connection 0 occupies the
single slot of the capacity-1 room `solo` and re-joins it. -/
theorem self_full_join_rejected_witness :
    (alookup 0 stSelfFull.clients = some (Session.mk 7 (some "solo") "A")
      ∧ alookup "solo" stSelfFull.rooms =
          some (Room.mk "solo" "Solo" 1 [(7, Player.mk 7 "A" "#fff" 0 2 0 0)] [] []))
    ∧ (ServerJs.handleJoinRoom stSelfFull 0 "solo" none none =
        (stSelfFull, [(0, OutMsg.error "Room is full")])
      ∧ alookup 0 (ServerJs.handleJoinRoom stSelfFull 0 "solo" none none).1.clients =
          some (Session.mk 7 (some "solo") "A")
      ∧ (Session.mk 7 (some "solo") "A").roomId = some "solo") :=
  ⟨⟨by decide, by decide⟩,
   self_full_join_rejected stSelfFull 0 (Session.mk 7 (some "solo") "A") "solo"
     (Room.mk "solo" "Solo" 1 [(7, Player.mk 7 "A" "#fff" 0 2 0 0)] [] [])
     none none (by decide) (by decide) (by decide) (by decide)⟩

/-- C9: an unparseable payload and a payload of unknown type are
dropped silently — the state, and with it the set of open connections,
is unchanged and no reply is emitted; and a `move`, `chat`,
`place_block` or `save_map` from a registered session that is in no
room is silently ignored with no reply and no state change. -/
theorem silent_drop_no_ops (st : ServerState) (c : Nat) (sess : Session)
    (x y z rotY : Int) (t bt : String) (l : List Block)
    (hc : alookup c st.clients = some sess)
    (hr : sess.roomId = none) :
    handleMessage st c InMsg.malformed = (st, [])
    ∧ handleMessage st c InMsg.unknownType = (st, [])
    ∧ handleMessage st c (InMsg.move x y z rotY) = (st, [])
    ∧ handleMessage st c (InMsg.chat t) = (st, [])
    ∧ handleMessage st c (InMsg.place_block x y z bt) = (st, [])
    ∧ handleMessage st c (InMsg.save_map l) = (st, []) := by
  refine ⟨rfl, ?_, ?_, ?_, ?_, ?_⟩ <;>
    simp only [handleMessage, hc, handleMove, handleChat, handlePlace, handleSave, hr]

/-- Witness for C9 at a concrete state: connection 0 is registered but
in no room. -/
theorem silent_drop_no_ops_witness :
    (alookup 0 stFull.clients = some (Session.mk 2 none "P")
      ∧ (Session.mk 2 none "P").roomId = none)
    ∧ (handleMessage stFull 0 InMsg.malformed = (stFull, [])
      ∧ handleMessage stFull 0 InMsg.unknownType = (stFull, [])
      ∧ handleMessage stFull 0 (InMsg.move 1 2 3 4) = (stFull, [])
      ∧ handleMessage stFull 0 (InMsg.chat "hey") = (stFull, [])
      ∧ handleMessage stFull 0 (InMsg.place_block 1 2 3 "stone") = (stFull, [])
      ∧ handleMessage stFull 0 (InMsg.save_map []) = (stFull, [])) :=
  ⟨⟨by decide, by decide⟩,
   silent_drop_no_ops stFull 0 (Session.mk 2 none "P") 1 2 3 4 "hey" "stone" []
     (by decide) (by decide)⟩

/-- C7: the claim states that a connection disconnecting while InRoom
decreases the room's player count by exactly one and triggers exactly
one `player_left` plus one system chat broadcast, even when both close
and error fire.  On `src/server.js` this fails, because its registry is
the colliding plain object: in the trace evaluated here, connection 0
connects (player 1) and joins room `r` (its own `room_joined` reply
confirms player id 1); connection 5 then connects, and its registration
overwrites the one shared registry slot; when connection 0 now
disconnects — close and error both firing, both running `leaveRoom` —
each call reads the shared slot, finds a session in no room, and
returns after deleting the slot: no player is removed, no `player_left`
and no system chat is emitted, and player 1 ghosts in the room with the
count unchanged.  The claim's behaviour does hold of the repository's
fixed variant (proved in `fixed_variant_disconnect_single_leave`), so
the claim is the intent and `src/server.js` is the slip. -/
theorem ghost_player_on_disconnect :
    roomJoinedPids (ServerJs.joinRoomObj ServerJs.jsGhost1 0 "r" none none).2 0 = [1]
    ∧ ServerJs.jsRoomPlayerIds ServerJs.jsGhost3 "r" = [1]
    ∧ (ServerJs.closeObj ServerJs.jsGhost3 0).2 = []
    ∧ (ServerJs.errorObj (ServerJs.closeObj ServerJs.jsGhost3 0).1 0).2 = []
    ∧ ServerJs.jsRoomPlayerIds
        (ServerJs.errorObj (ServerJs.closeObj ServerJs.jsGhost3 0).1 0).1 "r" = [1]
    ∧ ServerJs.jsRoomPlayersCount
        (ServerJs.errorObj (ServerJs.closeObj ServerJs.jsGhost3 0).1 0).1 "r" =
        ServerJs.jsRoomPlayersCount ServerJs.jsGhost3 "r" := by
  decide

/-- C2 counterexample: the claim states that re-joining the same room
with the same connection produces a `room_joined` whose player id
differs from the old player id.  Both server variants keep one stable
player id per connection: at a concrete state where connection 0 is in
`room_1` as player 7, the rejoin emits `player_left 7` and then a
`room_joined` carrying the same id 7. -/
theorem rejoin_same_player_id :
    alookup 0 stRejoin.clients = some (Session.mk 7 (some "room_1") "Alice")
    ∧ (0, OutMsg.player_left 7) ∈
        (handleMessage stRejoin 0 (InMsg.join_room "room_1" none none)).2
    ∧ roomJoinedPids
        (handleMessage stRejoin 0 (InMsg.join_room "room_1" none none)).2 0 = [7]
    ∧ ¬ (∀ pid2 ∈ roomJoinedPids
          (handleMessage stRejoin 0 (InMsg.join_room "room_1" none none)).2 0,
          pid2 ≠ 7) := by
  decide

/-- C2 amended: for a connection in room `rid` that re-joins `rid`
(with free capacity), the outbound sequence is the leave deliveries —
among them the `player_left` carrying the connection's player id —
followed by the `room_joined` reply; the `room_joined` carries the
*same* stable player id (not a new one), and the spawn position is
freshly recomputed from the random stream (x and z are the two next
draws, y is the fixed spawn height 2, heading 0) rather than reused
from the stored player state. -/
theorem rejoin_left_then_joined_fresh_spawn (st : ServerState) (c : Nat)
    (sess : Session) (rid : String) (room : Room) (nm col : Option String)
    (hc : alookup c st.clients = some sess)
    (hr : sess.roomId = some rid)
    (hroom : alookup rid st.rooms = some room)
    (hcap : room.players.length < room.maxPlayers)
    (hopen : c ∈ st.openConns) :
    ∃ l2 ridOut rn ps md ct pl,
      (handleMessage st c (InMsg.join_room rid nm col)).2 =
        (doLeave st c).2
          ++ (c, OutMsg.room_joined ridOut rn sess.playerId ps md ct) :: l2
      ∧ (c, OutMsg.player_left sess.playerId) ∈ (doLeave st c).2
      ∧ alookup sess.playerId ps = some pl
      ∧ pl.x = (draw st.rng).1 ∧ pl.y = 2 ∧ pl.z = (draw (draw st.rng).2).1
      ∧ pl.rotY = 0 := by
  have hfull : ¬ room.maxPlayers ≤ room.players.length := not_le.mpr hcap
  have hlook1 : alookup rid (doLeave st c).1.rooms =
      some { room with
        players := adel sess.playerId room.players,
        chatHistory := room.chatHistory ++
          [ChatMsg.mk "System" "#ff6b35" (sess.name ++ " left.") st.now] } := by
    simp only [doLeave, hc, hr, hroom]
    exact alookup_aset_self _ _ _
  have hrng1 : (doLeave st c).1.rng = st.rng := by
    simp only [doLeave, hc, hr, hroom]
  have hmem : (c, OutMsg.player_left sess.playerId) ∈ (doLeave st c).2 := by
    simp only [doLeave, hc, hr, hroom]
    refine List.mem_append_left _ ?_
    refine mem_broadcast.mpr ⟨rfl, hopen, by simp, ?_⟩
    simp only [inRoomB, hc, hr]
    simp
  simp only [handleMessage, hc, handleJoin, hroom, if_neg hfull, hr,
    Option.isSome_some, if_true, hlook1, hrng1]
  exact ⟨_, _, _, _, _, _, _, rfl, hmem, alookup_aset_self _ _ _, rfl, rfl, rfl, rfl⟩

/-- Witness for C2's amended theorem at the concrete rejoin state:
connection 0, in `room_1` as player 7, re-joins `room_1`. -/
theorem rejoin_left_then_joined_fresh_spawn_witness :
    (alookup 0 stRejoin.clients = some (Session.mk 7 (some "room_1") "Alice")
      ∧ (Session.mk 7 (some "room_1") "Alice").roomId = some "room_1"
      ∧ alookup "room_1" stRejoin.rooms =
          some (Room.mk "room_1" "Main World" 20
            [(7, Player.mk 7 "Alice" "#abc" 1 2 3 0)] [] [])
      ∧ 0 ∈ stRejoin.openConns)
    ∧ (∃ l2 ridOut rn ps md ct pl,
        (handleMessage stRejoin 0 (InMsg.join_room "room_1" none none)).2 =
          (doLeave stRejoin 0).2
            ++ (0, OutMsg.room_joined ridOut rn
                  (Session.mk 7 (some "room_1") "Alice").playerId ps md ct) :: l2
        ∧ (0, OutMsg.player_left (Session.mk 7 (some "room_1") "Alice").playerId) ∈
            (doLeave stRejoin 0).2
        ∧ alookup (Session.mk 7 (some "room_1") "Alice").playerId ps = some pl
        ∧ pl.x = (draw stRejoin.rng).1 ∧ pl.y = 2
        ∧ pl.z = (draw (draw stRejoin.rng).2).1
        ∧ pl.rotY = 0) :=
  ⟨⟨by decide, by decide, by decide, by decide⟩,
   rejoin_left_then_joined_fresh_spawn stRejoin 0
     (Session.mk 7 (some "room_1") "Alice") "room_1"
     (Room.mk "room_1" "Main World" 20 [(7, Player.mk 7 "Alice" "#abc" 1 2 3 0)] [] [])
     none none (by decide) (by decide) (by decide) (by decide) (by decide)⟩

/-- C3 counterexample: the claim states that the chat history never
exceeds 100 across chat messages, joins, leaves and disconnects.  The
system chat entry pushed by the join handler is appended without the
eviction step, so a join performed while the history already holds 100
entries leaves it at 101. -/
theorem system_chat_exceeds_bound :
    chatFull.length = 100
    ∧ roomHistoryLength
        (handleMessage stHist 0 (InMsg.join_room "room_1" none none)).1
        "room_1" = 101
    ∧ ¬ (roomHistoryLength
          (handleMessage stHist 0 (InMsg.join_room "room_1" none none)).1
          "room_1" ≤ 100) := by
  decide

/-- C3 amended: for inserts performed by the chat handler, the room's
chat history is the pushed list with the head shifted out exactly when
the push exceeds 100 — so a history at or under the bound stays at or
under it, the oldest entry is the one dropped when an insert from the
bound occurs, and the resulting history is a suffix of the arrival
sequence.  System chat entries pushed on join and leave bypass this
eviction and can push the history beyond the bound. -/
theorem chat_insert_bound_fifo (st : ServerState) (c : Nat) (sess : Session)
    (rid : String) (room : Room) (t : String)
    (hc : alookup c st.clients = some sess)
    (hr : sess.roomId = some rid)
    (hroom : alookup rid st.rooms = some room) :
    ∃ cm room2,
      alookup rid (handleMessage st c (InMsg.chat t)).1.rooms = some room2
      ∧ room2.chatHistory =
          (if 100 < (room.chatHistory ++ [cm]).length
           then (room.chatHistory ++ [cm]).drop 1
           else room.chatHistory ++ [cm])
      ∧ (room.chatHistory.length ≤ 100 → room2.chatHistory.length ≤ 100)
      ∧ room2.chatHistory <:+ room.chatHistory ++ [cm]
      ∧ (room.chatHistory.length = 100 →
          room2.chatHistory = room.chatHistory.drop 1 ++ [cm]) := by
  simp only [handleMessage, hc, handleChat, hr, hroom]
  refine ⟨ChatMsg.mk sess.name
      (((alookup sess.playerId room.players).map Player.color).getD "#fff")
      (t.take 200) st.now, _, alookup_aset_self _ _ _, rfl, ?_, ?_, ?_⟩
  · intro hlen
    by_cases hif : 100 < (room.chatHistory ++
        [ChatMsg.mk sess.name
          (((alookup sess.playerId room.players).map Player.color).getD "#fff")
          (t.take 200) st.now]).length
    · rw [if_pos hif]
      simp only [List.length_drop, List.length_append, List.length_cons,
        List.length_nil]
      omega
    · rw [if_neg hif]
      simp only [List.length_append, List.length_cons, List.length_nil] at hif ⊢
      omega
  · by_cases hif : 100 < (room.chatHistory ++
        [ChatMsg.mk sess.name
          (((alookup sess.playerId room.players).map Player.color).getD "#fff")
          (t.take 200) st.now]).length
    · rw [if_pos hif]
      exact List.drop_suffix _ _
    · rw [if_neg hif]
  · intro h100
    have hif : 100 < (room.chatHistory ++
        [ChatMsg.mk sess.name
          (((alookup sess.playerId room.players).map Player.color).getD "#fff")
          (t.take 200) st.now]).length := by
      simp [h100]
    rw [if_pos hif]
    exact List.drop_append_of_le_length (by omega)

/-- Witness for C3's amended theorem at a concrete state: connection 0
chats in room `solo` (whose history holds one entry), and the bound,
suffix and eviction conclusions are obtained from the theorem. -/
theorem chat_insert_bound_fifo_witness :
    (alookup 0 stSelfFull.clients = some (Session.mk 7 (some "solo") "A")
      ∧ (Session.mk 7 (some "solo") "A").roomId = some "solo"
      ∧ alookup "solo" stSelfFull.rooms =
          some (Room.mk "solo" "Solo" 1 [(7, Player.mk 7 "A" "#fff" 0 2 0 0)] [] []))
    ∧ (∃ cm room2,
        alookup "solo" (handleMessage stSelfFull 0 (InMsg.chat "hello")).1.rooms =
          some room2
        ∧ room2.chatHistory =
            (if 100 <
                ((Room.mk "solo" "Solo" 1 [(7, Player.mk 7 "A" "#fff" 0 2 0 0)] []
                  []).chatHistory ++ [cm]).length
             then ((Room.mk "solo" "Solo" 1 [(7, Player.mk 7 "A" "#fff" 0 2 0 0)] []
                  []).chatHistory ++ [cm]).drop 1
             else (Room.mk "solo" "Solo" 1 [(7, Player.mk 7 "A" "#fff" 0 2 0 0)] []
                  []).chatHistory ++ [cm])
        ∧ ((Room.mk "solo" "Solo" 1 [(7, Player.mk 7 "A" "#fff" 0 2 0 0)] []
              []).chatHistory.length ≤ 100 → room2.chatHistory.length ≤ 100)
        ∧ room2.chatHistory <:+
            (Room.mk "solo" "Solo" 1 [(7, Player.mk 7 "A" "#fff" 0 2 0 0)] []
              []).chatHistory ++ [cm]
        ∧ ((Room.mk "solo" "Solo" 1 [(7, Player.mk 7 "A" "#fff" 0 2 0 0)] []
              []).chatHistory.length = 100 →
            room2.chatHistory =
              (Room.mk "solo" "Solo" 1 [(7, Player.mk 7 "A" "#fff" 0 2 0 0)] []
                []).chatHistory.drop 1 ++ [cm])) :=
  ⟨⟨by decide, by decide, by decide⟩,
   chat_insert_bound_fifo stSelfFull 0 (Session.mk 7 (some "solo") "A") "solo"
     (Room.mk "solo" "Solo" 1 [(7, Player.mk 7 "A" "#fff" 0 2 0 0)] [] [])
     "hello" (by decide) (by decide) (by decide)⟩

/-- C4 counterexample: the claim states that starting from the room's
initial map and across `save_map` replacements, the map holds at most
one entry per coordinate.  `save_map` installs the client-supplied list
verbatim, so saving a list with a duplicated coordinate leaves the
room's map with two entries at (0,0,0) and then no `place_block` at
all violates the bound. -/
theorem save_map_duplicate_coords :
    countAt (roomMapData (handleMessage stMap 0 (InMsg.save_map
        [Block.mk 0 0 0 "stone", Block.mk 0 0 0 "stone"])).1 "room_1") 0 0 0 = 2
    ∧ ¬ nodupCoords (roomMapData (handleMessage stMap 0 (InMsg.save_map
        [Block.mk 0 0 0 "stone", Block.mk 0 0 0 "stone"])).1 "room_1") := by
  decide

/-- C4 amended: over sequences consisting of `place_block` operations,
the handler's map transform preserves the at-most-one-entry-per-
coordinate property of its starting map, and a coordinate whose last
`place_block` set type "air" has no entry; maps installed whole by
`save_map` (and the randomly decorated generated map) are themselves
not deduplicated. -/
theorem place_block_coord_invariant (m : List Block) (ops : List PlaceOp)
    (x y z : Int) (hm : nodupCoords m)
    (hair : lastTypeAt ops x y z = some "air") :
    nodupCoords (applyPlaces m ops)
    ∧ countAt (applyPlaces m ops) x y z = 0 :=
  ⟨nodupCoords_applyPlaces m ops hm, lastTypeAt_air_absent m ops x y z hair⟩

/-- Witness for C4's amended theorem: the specification's own scenario
place_block(5,1,5,"stone") then place_block(5,1,5,"air") leaves no
entry at (5,1,5). -/
theorem place_block_coord_invariant_witness :
    (nodupCoords [Block.mk 0 0 0 "grass"]
      ∧ lastTypeAt [PlaceOp.mk 5 1 5 "stone", PlaceOp.mk 5 1 5 "air"] 5 1 5 =
          some "air")
    ∧ (nodupCoords (applyPlaces [Block.mk 0 0 0 "grass"]
          [PlaceOp.mk 5 1 5 "stone", PlaceOp.mk 5 1 5 "air"])
      ∧ countAt (applyPlaces [Block.mk 0 0 0 "grass"]
          [PlaceOp.mk 5 1 5 "stone", PlaceOp.mk 5 1 5 "air"]) 5 1 5 = 0) :=
  ⟨⟨by decide, by decide⟩,
   place_block_coord_invariant [Block.mk 0 0 0 "grass"]
     [PlaceOp.mk 5 1 5 "stone", PlaceOp.mk 5 1 5 "air"] 5 1 5
     (by decide) (by decide)⟩

/-- C5: every event step preserves the invariant that each room holds
at most its maximum number of players, and a `join_room` for a room at
capacity returns the state unchanged with exactly one error reply to
the requester — never a partial admission. -/
theorem room_capacity_invariant (st : ServerState) (e : Event)
    (hinv : roomsCapOK st) :
    roomsCapOK (step st e).1
    ∧ (∀ c rid nm col sess room,
        e = Event.message c (InMsg.join_room rid nm col) →
        alookup c st.clients = some sess →
        alookup rid st.rooms = some room →
        room.maxPlayers ≤ room.players.length →
        step st e = (st, [(c, OutMsg.error "Room full")])) := by
  constructor
  · cases e with
    | connect c =>
      simp only [step, connect]
      exact hinv
    | errorEv c => exact hinv
    | close c =>
      simp only [step, closeConn]
      exact doLeave_capOK _ c hinv
    | message c msg =>
      cases msg with
      | malformed => exact hinv
      | join_room rid nm col =>
        cases hc : alookup c st.clients with
        | none => simp only [step, handleMessage, hc]; exact hinv
        | some sess =>
          simp only [step, handleMessage, hc]
          exact handleJoin_capOK st c sess rid nm col hinv
      | move x y z rotY =>
        cases hc : alookup c st.clients with
        | none => simp only [step, handleMessage, hc]; exact hinv
        | some sess =>
          simp only [step, handleMessage, hc]
          exact handleMove_capOK st c sess x y z rotY hinv
      | chat t =>
        cases hc : alookup c st.clients with
        | none => simp only [step, handleMessage, hc]; exact hinv
        | some sess =>
          simp only [step, handleMessage, hc]
          exact handleChat_capOK st c sess t hinv
      | place_block x y z bt =>
        cases hc : alookup c st.clients with
        | none => simp only [step, handleMessage, hc]; exact hinv
        | some sess =>
          simp only [step, handleMessage, hc]
          exact handlePlace_capOK st c sess x y z bt hinv
      | save_map l =>
        cases hc : alookup c st.clients with
        | none => simp only [step, handleMessage, hc]; exact hinv
        | some sess =>
          simp only [step, handleMessage, hc]
          exact handleSave_capOK st c sess l hinv
      | ping =>
        cases hc : alookup c st.clients with
        | none => simp only [step, handleMessage, hc]; exact hinv
        | some sess => simp only [step, handleMessage, hc]; exact hinv
      | unknownType =>
        cases hc : alookup c st.clients with
        | none => simp only [step, handleMessage, hc]; exact hinv
        | some sess => simp only [step, handleMessage, hc]; exact hinv
  · rintro c rid nm col sess room rfl hc hroom hfull
    simp only [step, handleMessage, hc, handleJoin, hroom, if_pos hfull]

/-- Witness for C5 at a concrete state: the invariant holds before and
after connection 0 attempts to join the full capacity-1 room `solo`,
and the attempt returns an unchanged state with the single error
reply. -/
theorem room_capacity_invariant_witness :
    roomsCapOK stFull
    ∧ roomsCapOK
        (step stFull (Event.message 0 (InMsg.join_room "solo" none none))).1
    ∧ step stFull (Event.message 0 (InMsg.join_room "solo" none none)) =
        (stFull, [(0, OutMsg.error "Room full")]) :=
  ⟨by decide,
   (room_capacity_invariant stFull
     (Event.message 0 (InMsg.join_room "solo" none none)) (by decide)).1,
   (room_capacity_invariant stFull
     (Event.message 0 (InMsg.join_room "solo" none none)) (by decide)).2
     0 "solo" none none (Session.mk 2 none "P")
     (Room.mk "solo" "Solo" 1 [(1, Player.mk 1 "B" "#fff" 0 2 0 0)] [] [])
     rfl (by decide) (by decide) (by decide)⟩

/-- C6: the `player_moved` broadcast caused by a `move` is never
delivered to the mover, and every other open connection registered in
the same room receives it; whereas the `chat`, `block_update` and
`map_reload` broadcasts caused by `chat`, `place_block` and `save_map`
are delivered to every open connection registered in the room — the
whole room, the originator included. -/
theorem move_broadcast_excludes_mover (st : ServerState) (c : Nat) (sess : Session)
    (rid : String) (room : Room) (p : Player) (x y z rotY : Int)
    (t bt : String) (mx my mz : Int) (l : List Block)
    (hc : alookup c st.clients = some sess)
    (hr : sess.roomId = some rid)
    (hroom : alookup rid st.rooms = some room)
    (hp : alookup sess.playerId room.players = some p) :
    (∀ d m, (d, m) ∈ (handleMessage st c (InMsg.move x y z rotY)).2 → d ≠ c)
    ∧ (∀ d sd, d ∈ st.openConns → d ≠ c →
        alookup d st.clients = some sd → sd.roomId = some rid →
        (d, OutMsg.player_moved sess.playerId x y z rotY) ∈
          (handleMessage st c (InMsg.move x y z rotY)).2)
    ∧ (∃ cm, ∀ d sd, d ∈ st.openConns →
        alookup d st.clients = some sd → sd.roomId = some rid →
        (d, OutMsg.chat cm) ∈ (handleMessage st c (InMsg.chat t)).2)
    ∧ (∀ d sd, d ∈ st.openConns →
        alookup d st.clients = some sd → sd.roomId = some rid →
        (d, OutMsg.block_update mx my mz bt) ∈
          (handleMessage st c (InMsg.place_block mx my mz bt)).2)
    ∧ (∀ d sd, d ∈ st.openConns →
        alookup d st.clients = some sd → sd.roomId = some rid →
        (d, OutMsg.map_reload l) ∈ (handleMessage st c (InMsg.save_map l)).2) := by
  refine ⟨?_, ?_, ?_, ?_, ?_⟩
  · intro d m hmem
    simp only [handleMessage, hc, handleMove, hr, hroom, hp] at hmem
    rcases mem_broadcast.mp hmem with ⟨_, _, hskip, _⟩
    intro he
    exact hskip (by rw [he])
  · intro d sd hd hdc hsd hsdr
    simp only [handleMessage, hc, handleMove, hr, hroom, hp]
    refine mem_broadcast.mpr ⟨rfl, hd, ?_, ?_⟩
    · intro he
      exact hdc (by injection he)
    · simp only [inRoomB, hsd, hsdr]
      simp
  · refine ⟨ChatMsg.mk sess.name
      (((alookup sess.playerId room.players).map Player.color).getD "#fff")
      (t.take 200) st.now, ?_⟩
    intro d sd hd hsd hsdr
    simp only [handleMessage, hc, handleChat, hr, hroom]
    refine mem_broadcast.mpr ⟨rfl, hd, by simp, ?_⟩
    simp only [inRoomB, hsd, hsdr]
    simp
  · intro d sd hd hsd hsdr
    simp only [handleMessage, hc, handlePlace, hr, hroom]
    refine mem_broadcast.mpr ⟨rfl, hd, by simp, ?_⟩
    simp only [inRoomB, hsd, hsdr]
    simp
  · intro d sd hd hsd hsdr
    simp only [handleMessage, hc, handleSave, hr, hroom]
    refine List.mem_append_left _ ?_
    refine mem_broadcast.mpr ⟨rfl, hd, by simp, ?_⟩
    simp only [inRoomB, hsd, hsdr]
    simp

/-- Witness for C6 at a concrete two-connection state: connection 0
moves, chats, places a block and saves the map; connection 5 (same
room) receives the `player_moved`; for the chat, `block_update` and
`map_reload` both room members — the originator 0 and the other
member 5 — receive the broadcast. -/
theorem move_broadcast_excludes_mover_witness :
    (alookup 0 stTwo.clients = some (Session.mk 1 (some "r") "A")
      ∧ alookup "r" stTwo.rooms =
          some (Room.mk "r" "R" 20
            [(1, Player.mk 1 "A" "#fff" 0 2 0 0), (2, Player.mk 2 "B" "#fff" 0 2 0 0)]
            [] []))
    ∧ (5, OutMsg.player_moved 1 9 9 9 0) ∈
        (handleMessage stTwo 0 (InMsg.move 9 9 9 0)).2
    ∧ (∃ cm, (0, OutMsg.chat cm) ∈ (handleMessage stTwo 0 (InMsg.chat "hey")).2
        ∧ (5, OutMsg.chat cm) ∈ (handleMessage stTwo 0 (InMsg.chat "hey")).2)
    ∧ (0, OutMsg.block_update 1 2 3 "stone") ∈
        (handleMessage stTwo 0 (InMsg.place_block 1 2 3 "stone")).2
    ∧ (5, OutMsg.block_update 1 2 3 "stone") ∈
        (handleMessage stTwo 0 (InMsg.place_block 1 2 3 "stone")).2
    ∧ (0, OutMsg.map_reload []) ∈
        (handleMessage stTwo 0 (InMsg.save_map [])).2
    ∧ (5, OutMsg.map_reload []) ∈
        (handleMessage stTwo 0 (InMsg.save_map [])).2 := by
  have T := move_broadcast_excludes_mover stTwo 0 (Session.mk 1 (some "r") "A") "r"
    (Room.mk "r" "R" 20
      [(1, Player.mk 1 "A" "#fff" 0 2 0 0), (2, Player.mk 2 "B" "#fff" 0 2 0 0)] [] [])
    (Player.mk 1 "A" "#fff" 0 2 0 0) 9 9 9 0 "hey" "stone" 1 2 3 []
    (by decide) (by decide) (by decide) (by decide)
  obtain ⟨cm, hall⟩ := T.2.2.1
  exact ⟨⟨by decide, by decide⟩,
    T.2.1 5 (Session.mk 2 (some "r") "B") (by decide) (by decide) (by decide) (by decide),
    ⟨cm,
      hall 0 (Session.mk 1 (some "r") "A") (by decide) (by decide) (by decide),
      hall 5 (Session.mk 2 (some "r") "B") (by decide) (by decide) (by decide)⟩,
    T.2.2.2.1 0 (Session.mk 1 (some "r") "A") (by decide) (by decide) (by decide),
    T.2.2.2.1 5 (Session.mk 2 (some "r") "B") (by decide) (by decide) (by decide),
    T.2.2.2.2 0 (Session.mk 1 (some "r") "A") (by decide) (by decide) (by decide),
    T.2.2.2.2 5 (Session.mk 2 (some "r") "B") (by decide) (by decide) (by decide)⟩
